import Mathlib

/-!
Verification of the note storage and identity contract of the Notes
Organizer backend (src/backend/main.py): a FastAPI service exposing
list/create/update/delete over a collection of notes persisted as a JSON
array in a single file.

The embedding models the persisted file, the four handlers, and the
pydantic payload validation.  The `uuid4` draw performed by `create_note`
is modelled as an explicit `fresh : String` parameter (an oracle for the
random token); freshness of the draw is stated as a hypothesis where a
claim depends on it.
-/

set_option autoImplicit false

namespace NotesOrganizer

/-- A stored note: the JSON object `{"id", "title", "content", "tags"}`
written by `_save_notes` (every writer populates all four keys). -/
structure Note where
  id : String
  title : String
  content : String
  tags : List String
deriving DecidableEq

/-- A minimal JSON value universe covering everything a note serializes
to: strings, arrays and objects (`json.dump` / `json.load` in the code). -/
inductive Json where
  | str (s : String)
  | arr (items : List Json)
  | obj (fields : List (String × Json))

/-- Serialization of one note dict, as written by `json.dump` in
`_save_notes`. -/
def encodeNote (n : Note) : Json :=
  Json.obj [("id", Json.str n.id), ("title", Json.str n.title),
            ("content", Json.str n.content),
            ("tags", Json.arr (n.tags.map Json.str))]

/-- The persisted JSON array holding the whole collection. -/
def encodeNotes (ns : List Note) : Json :=
  Json.arr (ns.map encodeNote)

/-- Key lookup in a JSON object (Python dict access). -/
def jsonLookup (fields : List (String × Json)) (k : String) : Option Json :=
  (fields.find? (fun f => f.1 == k)).map (fun f => f.2)

/-- Read a JSON value as a string. -/
def asStr : Json → Option String
  | Json.str s => some s
  | _ => none

/-- Parse every element of a JSON array, failing when any element fails. -/
def decodeList {α : Type} (f : Json → Option α) : List Json → Option (List α)
  | [] => some []
  | j :: rest => do
    let a ← f j
    let as ← decodeList f rest
    pure (a :: as)

/-- Read a JSON value as a list of strings. -/
def asStrList : Json → Option (List String)
  | Json.arr items => decodeList asStr items
  | _ => none

/-- Recover a note from its serialized dict. -/
def decodeNote : Json → Option Note
  | Json.obj fields => do
    let i ← (jsonLookup fields "id").bind asStr
    let t ← (jsonLookup fields "title").bind asStr
    let c ← (jsonLookup fields "content").bind asStr
    let g ← (jsonLookup fields "tags").bind asStrList
    pure ⟨i, t, c, g⟩
  | _ => none

/-- Recover the whole collection from the persisted JSON array. -/
def decodeNotes : Json → Option (List Note)
  | Json.arr items => decodeList decodeNote items
  | _ => none

/-- State of the persisted file `data/notes.json`.  `missing` is the
absent file; `corrupt` covers a file that fails to open, fails to parse,
or parses to a JSON value that is not a list (`_load_notes` treats every
such case as an empty store).  A readable file holding a JSON array of
note objects is represented by the parsed collection itself: the only
writer, `_save_notes`, always writes such an array (the lossless
round trip through `encodeNotes`/`decodeNotes` is proved below). -/
inductive FileState where
  | missing
  | corrupt
  | stored (notes : List Note)
deriving DecidableEq

/-- `_load_notes`: returns `[]` when the file is missing, unreadable,
unparseable or not a list; otherwise the parsed list. -/
def _load_notes : FileState → List Note
  | FileState.missing => []
  | FileState.corrupt => []
  | FileState.stored ns => ns

/-- `_save_notes`: overwrites the file with the serialized collection. -/
def _save_notes (ns : List Note) : FileState :=
  FileState.stored ns

/-- Error taxonomy surfaced to the HTTP layer: `validation` is the 422
pydantic rejection, `notFound` the `HTTPException(status_code=404)`. -/
inductive ApiError where
  | validation
  | notFound
deriving DecidableEq

/-- A JSON field of a request body: absent from the payload, an explicit
`null`, or a (well-typed) value. -/
inductive Field3 (α : Type) where
  | absent
  | null
  | val (v : α)
deriving DecidableEq

/-- Raw body of `POST /notes` before pydantic validation (`NoteCreate`). -/
structure RawCreate where
  title : Field3 String
  content : Field3 String
  tags : Field3 (List String)
deriving DecidableEq

/-- Validated `NoteCreate` payload: `title` required with `min_length=1`,
`content` defaults to `""`, `tags` is `Optional[List[str]]` defaulting to
`[]` (so an explicit `null` yields the value `None`, modelled `none`). -/
structure NoteCreate where
  title : String
  content : String
  tags : Option (List String)
deriving DecidableEq

/-- Pydantic validation of `NoteCreate`: `title` must be present, a
string, and non-empty (`min_length=1`); `content` must be a string when
present (an explicit `null` fails the `str` type check) and defaults to
`""`; `tags` defaults to `[]` when absent and accepts `null` as `None`. -/
def parseCreate (r : RawCreate) : Option NoteCreate :=
  match r.title with
  | Field3.val t =>
    if t.length < 1 then none
    else
      match r.content with
      | Field3.absent =>
        match r.tags with
        | Field3.absent => some ⟨t, "", some []⟩
        | Field3.null => some ⟨t, "", none⟩
        | Field3.val g => some ⟨t, "", some g⟩
      | Field3.null => none
      | Field3.val c =>
        match r.tags with
        | Field3.absent => some ⟨t, c, some []⟩
        | Field3.null => some ⟨t, c, none⟩
        | Field3.val g => some ⟨t, c, some g⟩
  | _ => none

/-- Raw body of `PUT /notes/{id}` before pydantic validation. -/
structure RawUpdate where
  title : Field3 String
  content : Field3 String
  tags : Field3 (List String)
deriving DecidableEq

/-- Validated `NoteUpdate` payload: every field is `Optional[...] = None`,
so both an absent field and an explicit `null` become `None`. -/
structure NoteUpdate where
  title : Option String
  content : Option String
  tags : Option (List String)
deriving DecidableEq

/-- One optional update field through pydantic: absent and `null` both
become `None`. -/
def field3ToOpt {α : Type} : Field3 α → Option α
  | Field3.absent => none
  | Field3.null => none
  | Field3.val v => some v

/-- Pydantic validation of `NoteUpdate` (never rejects a well-typed
body: every field is optional and unconstrained). -/
def parseUpdate (r : RawUpdate) : NoteUpdate :=
  ⟨field3ToOpt r.title, field3ToOpt r.content, field3ToOpt r.tags⟩

/-- `GET /notes`: `list_notes` returns `_load_notes()`. -/
def list_notes (fs : FileState) : List Note :=
  _load_notes fs

/-- `POST /notes` handler body after validation: builds the new note dict
with the drawn id, `payload.title`, `payload.content` and
`payload.tags or []` (Python `or`, sending `None` to `[]`), prepends it
with `notes.insert(0, new_note)`, saves, and returns it. -/
def create_note (fresh : String) (payload : NoteCreate) (fs : FileState) :
    Note × FileState :=
  let notes := _load_notes fs
  let new_note : Note :=
    ⟨fresh, payload.title, payload.content, payload.tags.getD []⟩
  (new_note, _save_notes (new_note :: notes))

/-- `POST /notes` including the pydantic layer: a body failing validation
is rejected with 422 before the handler runs, leaving the file untouched. -/
def handle_create (fresh : String) (r : RawCreate) (fs : FileState) :
    Except ApiError Note × FileState :=
  match parseCreate r with
  | none => (Except.error ApiError.validation, fs)
  | some payload =>
    let res := create_note fresh payload fs
    (Except.ok res.1, res.2)

/-- The per-field in-place mutation of `update_note`: each of
`title`/`content`/`tags` is overwritten exactly when the payload field
`is not None`. -/
def applyUpdate (payload : NoteUpdate) (n : Note) : Note :=
  { n with
    title := payload.title.getD n.title
    content := payload.content.getD n.content
    tags := payload.tags.getD n.tags }

/-- The `for idx, n in enumerate(notes)` loop of `update_note`: mutate the
first note whose `id` matches, returning the updated note and the updated
list; `none` when no note matches. -/
def updateFirst (note_id : String) (payload : NoteUpdate) :
    List Note → Option (Note × List Note)
  | [] => none
  | n :: rest =>
    if n.id = note_id then
      let n' := applyUpdate payload n
      some (n', n' :: rest)
    else
      match updateFirst note_id payload rest with
      | none => none
      | some (m, rest') => some (m, n :: rest')

/-- `PUT /notes/{note_id}`: loads the collection, updates the first note
with the given id and saves, or raises 404 leaving the file untouched. -/
def update_note (note_id : String) (payload : NoteUpdate) (fs : FileState) :
    Except ApiError Note × FileState :=
  match updateFirst note_id payload (_load_notes fs) with
  | none => (Except.error ApiError.notFound, fs)
  | some (n', notes') => (Except.ok n', _save_notes notes')

/-- `PUT /notes/{note_id}` including the pydantic layer. -/
def handle_update (note_id : String) (r : RawUpdate) (fs : FileState) :
    Except ApiError Note × FileState :=
  update_note note_id (parseUpdate r) fs

/-- `DELETE /notes/{note_id}`: filters out every note with the given id;
when nothing was removed raises 404 leaving the file untouched, otherwise
saves and returns the deleted id (`{"ok": True, "deleted": note_id}`). -/
def delete_note (note_id : String) (fs : FileState) :
    Except ApiError String × FileState :=
  let notes := _load_notes fs
  let filtered := notes.filter (fun n => n.id != note_id)
  if filtered.length = notes.length then
    (Except.error ApiError.notFound, fs)
  else
    (Except.ok note_id, _save_notes filtered)

/-- Map an explicit `null` request field to an absent one (used to state
that the code cannot tell the two apart). -/
def absentifyField {α : Type} : Field3 α → Field3 α
  | Field3.null => Field3.absent
  | x => x

/-- Replace every explicit `null` field of an update body by an absent
field. -/
def absentify (r : RawUpdate) : RawUpdate :=
  ⟨absentifyField r.title, absentifyField r.content, absentifyField r.tags⟩

/-- Specification predicate for creation: the returned note carries the
drawn id, that id is not used by any pre-existing note (and is unique in
the resulting store), absent `content`/`tags` defaulted, and the new note
was prepended to the store. -/
def CreateSpec (r : RawCreate) (payload : NoteCreate) (fresh : String)
    (fs : FileState) : Prop :=
  (create_note fresh payload fs).1.id = fresh ∧
  (create_note fresh payload fs).1.id ∉ (list_notes fs).map Note.id ∧
  (r.content = Field3.absent → (create_note fresh payload fs).1.content = "") ∧
  (r.tags = Field3.absent → (create_note fresh payload fs).1.tags = []) ∧
  list_notes (create_note fresh payload fs).2
    = (create_note fresh payload fs).1 :: list_notes fs ∧
  (list_notes (create_note fresh payload fs).2).filter
    (fun m => m.id == fresh) = [(create_note fresh payload fs).1]

/-- Specification predicate for a partial update of the stored note `n₀`
(the first note with the requested id): the handler returns the updated
note, its id is unchanged, each field follows the payload exactly when
present and keeps its prior value exactly when absent, and the rest of
the stored collection is untouched. -/
def UpdateSpec (note_id : String) (payload : NoteUpdate) (fs : FileState)
    (n₀ : Note) : Prop :=
  (update_note note_id payload fs).1 = Except.ok (applyUpdate payload n₀) ∧
  (applyUpdate payload n₀).id = n₀.id ∧
  (payload.title = none → (applyUpdate payload n₀).title = n₀.title) ∧
  (∀ t, payload.title = some t → (applyUpdate payload n₀).title = t) ∧
  (payload.content = none → (applyUpdate payload n₀).content = n₀.content) ∧
  (∀ c, payload.content = some c → (applyUpdate payload n₀).content = c) ∧
  (payload.tags = none → (applyUpdate payload n₀).tags = n₀.tags) ∧
  (∀ g, payload.tags = some g → (applyUpdate payload n₀).tags = g) ∧
  ∃ l₁ l₂, list_notes fs = l₁ ++ n₀ :: l₂ ∧ (∀ m ∈ l₁, m.id ≠ note_id) ∧
    list_notes (update_note note_id payload fs).2
      = l₁ ++ applyUpdate payload n₀ :: l₂

/-- Specification predicate for recovery: every operation on the file
state `fs` behaves exactly as on an empty store. -/
def BehavesAsEmpty (fs : FileState) : Prop :=
  list_notes fs = [] ∧
  (∀ fresh payload, create_note fresh payload fs
      = create_note fresh payload (FileState.stored [])) ∧
  (∀ note_id payload,
    (update_note note_id payload fs).1
        = (update_note note_id payload (FileState.stored [])).1 ∧
    list_notes (update_note note_id payload fs).2
        = list_notes (update_note note_id payload (FileState.stored [])).2) ∧
  (∀ note_id,
    (delete_note note_id fs).1 = (delete_note note_id (FileState.stored [])).1 ∧
    list_notes (delete_note note_id fs).2
        = list_notes (delete_note note_id (FileState.stored [])).2)

/-- Specification predicate for deletion of a present id: the call
confirms the deleted id, the resulting store holds no note with that id,
and deleting the same id again fails with 404. -/
def DeleteSpec (note_id : String) (fs : FileState) : Prop :=
  (delete_note note_id fs).1 = Except.ok note_id ∧
  (∀ m ∈ list_notes (delete_note note_id fs).2, m.id ≠ note_id) ∧
  (delete_note note_id (delete_note note_id fs).2).1
    = Except.error ApiError.notFound

/-- Specification predicate for listing right after creation: the new
note is the first element of the listed sequence, its fields match the
submitted payload, and absent `content`/`tags` got their defaults. -/
def CreateListSpec (r : RawCreate) (payload : NoteCreate) (fresh : String)
    (fs : FileState) : Prop :=
  list_notes (create_note fresh payload fs).2
    = (create_note fresh payload fs).1 :: list_notes fs ∧
  (create_note fresh payload fs).1.title = payload.title ∧
  (create_note fresh payload fs).1.content = payload.content ∧
  (create_note fresh payload fs).1.tags = payload.tags.getD [] ∧
  (r.content = Field3.absent → (create_note fresh payload fs).1.content = "") ∧
  (r.tags = Field3.absent → (create_note fresh payload fs).1.tags = [])

/-- Specification predicate for update bodies: explicit `null` fields are
handled exactly like absent fields, and a `null` title on an existing
note leaves the stored title unchanged. -/
def NullAbsentSpec (note_id : String) (r : RawUpdate) (fs : FileState) : Prop :=
  handle_update note_id (absentify r) fs = handle_update note_id r fs ∧
  (r.title = Field3.null → (parseUpdate r).title = none) ∧
  (r.content = Field3.null → (parseUpdate r).content = none) ∧
  (r.tags = Field3.null → (parseUpdate r).tags = none) ∧
  (∀ n₀, (list_notes fs).find? (fun n => n.id == note_id) = some n₀ →
    r.title = Field3.null →
    (handle_update note_id r fs).1
        = Except.ok (applyUpdate (parseUpdate r) n₀) ∧
    (applyUpdate (parseUpdate r) n₀).title = n₀.title)


theorem decodeList_map_of_inverse {α : Type} (f : α → Json) (g : Json → Option α)
    (hfg : ∀ a, g (f a) = some a) :
    ∀ l : List α, decodeList g (l.map f) = some l
  | [] => rfl
  | a :: l => by
    simp [decodeList, hfg a, decodeList_map_of_inverse f g hfg l]

theorem decodeNote_encodeNote (n : Note) : decodeNote (encodeNote n) = some n := by
  have h : decodeList asStr (n.tags.map Json.str) = some n.tags :=
    decodeList_map_of_inverse Json.str asStr (fun s => rfl) n.tags
  simp [decodeNote, encodeNote, jsonLookup, asStr, asStrList, h, List.find?]

theorem decodeNotes_encodeNotes (ns : List Note) :
    decodeNotes (encodeNotes ns) = some ns := by
  simp [decodeNotes, encodeNotes,
    decodeList_map_of_inverse encodeNote decodeNote decodeNote_encodeNote ns]

theorem updateFirst_eq_none (note_id : String) (payload : NoteUpdate) :
    ∀ l : List Note, (∀ n ∈ l, n.id ≠ note_id) → updateFirst note_id payload l = none
  | [], _ => rfl
  | a :: l, h => by
    have ha : a.id ≠ note_id := h a (by simp)
    have ih := updateFirst_eq_none note_id payload l (fun n hn => h n (by simp [hn]))
    simp [updateFirst, ha, ih]

theorem find?_id_spec (note_id : String) :
    ∀ (l : List Note) (n₀ : Note),
      l.find? (fun n => n.id == note_id) = some n₀ →
      n₀.id = note_id ∧
      ∃ l₁ l₂, l = l₁ ++ n₀ :: l₂ ∧ (∀ m ∈ l₁, m.id ≠ note_id) ∧
        ∀ payload, updateFirst note_id payload l =
          some (applyUpdate payload n₀, l₁ ++ applyUpdate payload n₀ :: l₂)
  | [], n₀, h => by simp [List.find?] at h
  | a :: l, n₀, h => by
    by_cases ha : a.id = note_id
    · have hfind : a = n₀ := by
        rw [List.find?_cons_of_pos _ (by simp [ha])] at h
        exact Option.some.inj h
      subst hfind
      exact ⟨ha, [], l, rfl, by simp, fun payload => by simp [updateFirst, ha]⟩
    · rw [List.find?_cons_of_neg _ (by simp [ha])] at h
      obtain ⟨hid, l₁, l₂, hl, hl₁, hup⟩ := find?_id_spec note_id l n₀ h
      refine ⟨hid, a :: l₁, l₂, by simp [hl], ?_, fun payload => ?_⟩
      · intro m hm
        rcases List.mem_cons.mp hm with hm | hm
        · subst hm; exact ha
        · exact hl₁ m hm
      · simp [updateFirst, ha, hup payload]

theorem find?_id_of_mem {note_id : String} :
    ∀ {l : List Note}, (∃ n ∈ l, n.id = note_id) →
      ∃ n₀, l.find? (fun n => n.id == note_id) = some n₀ := by
  intro l h
  obtain ⟨n, hn, hid⟩ := h
  have : (l.find? (fun n => n.id == note_id)).isSome := by
    rw [List.find?_isSome]
    exact ⟨n, hn, by simp [hid]⟩
  exact Option.isSome_iff_exists.mp this

theorem length_filter_ne_of_mem {note_id : String} :
    ∀ {l : List Note}, (∃ n ∈ l, n.id = note_id) →
      (l.filter (fun n => n.id != note_id)).length ≠ l.length
  | a :: l, h => by
    by_cases ha : a.id = note_id
    · have hle := List.length_filter_le (fun n : Note => n.id != note_id) l
      have hb : (a.id != note_id) = false := by simp [ha]
      simp only [List.filter_cons, hb, Bool.false_eq_true, if_false, List.length_cons]
      omega
    · obtain ⟨n, hn, hid⟩ := h
      rcases List.mem_cons.mp hn with hn | hn
      · subst hn; exact absurd hid ha
      · have ih := @length_filter_ne_of_mem note_id l ⟨n, hn, hid⟩
        have hb : (a.id != note_id) = true := by simp [ha]
        simp only [List.filter_cons, hb, if_true, List.length_cons]
        omega

theorem id_ne_of_mem_filter {note_id : String} {l : List Note} {m : Note}
    (h : m ∈ l.filter (fun n => n.id != note_id)) : m.id ≠ note_id := by
  have := (List.mem_filter.mp h).2
  simpa using this

theorem filter_ne_idem (note_id : String) (l : List Note) :
    (l.filter (fun n => n.id != note_id)).filter (fun n => n.id != note_id)
      = l.filter (fun n => n.id != note_id) := by
  rw [List.filter_filter]
  simp

theorem filter_ne_eq_self {note_id : String} {l : List Note}
    (h : ∀ n ∈ l, n.id ≠ note_id) : l.filter (fun n => n.id != note_id) = l := by
  rw [List.filter_eq_self]
  intro a ha
  simp [h a ha]

theorem parseCreate_content_absent {r : RawCreate} {payload : NoteCreate}
    (hp : parseCreate r = some payload) (hc : r.content = Field3.absent) :
    payload.content = "" := by
  rcases r with ⟨rt, rc, rg⟩
  cases hc
  rcases rt with _ | _ | t
  · simp [parseCreate] at hp
  · simp [parseCreate] at hp
  · rcases rg with _ | _ | g <;>
    · simp only [parseCreate] at hp
      split at hp
      · exact absurd hp (by simp)
      · obtain rfl := Option.some.inj hp
        rfl

theorem parseCreate_tags_absent {r : RawCreate} {payload : NoteCreate}
    (hp : parseCreate r = some payload) (hg : r.tags = Field3.absent) :
    payload.tags = some [] := by
  rcases r with ⟨rt, rc, rg⟩
  cases hg
  rcases rt with _ | _ | t
  · simp [parseCreate] at hp
  · simp [parseCreate] at hp
  · rcases rc with _ | _ | c
    · simp only [parseCreate] at hp
      split at hp
      · exact absurd hp (by simp)
      · obtain rfl := Option.some.inj hp
        rfl
    · simp [parseCreate] at hp
    · simp only [parseCreate] at hp
      split at hp
      · exact absurd hp (by simp)
      · obtain rfl := Option.some.inj hp
        rfl


/-- Claim C1: for every create call whose title is a non-empty string,
`create_note` assigns a fresh unique id not currently in use by any
existing note in the store (the `uuid4` draw being the oracle `fresh`,
assumed not to collide), defaults `content` to `""` and `tags` to `[]`
when those fields are absent, inserts the new note into the store, and
returns the created note including its assigned id. -/
theorem create_note_fresh_and_defaults (r : RawCreate) (payload : NoteCreate)
    (fresh : String) (fs : FileState)
    (hp : parseCreate r = some payload)
    (hfresh : fresh ∉ (list_notes fs).map Note.id) :
    CreateSpec r payload fresh fs := by
  refine ⟨rfl, hfresh, fun hc => parseCreate_content_absent hp hc, ?_, rfl, ?_⟩
  · intro hg
    have ht := parseCreate_tags_absent hp hg
    simp [create_note, ht]
  · have hnil : (list_notes fs).filter (fun m => m.id == fresh) = [] := by
      rw [List.filter_eq_nil_iff]
      intro m hm
      simp only [beq_eq_false_iff_ne, ne_eq, Bool.not_eq_true]
      intro he
      exact hfresh (he ▸ List.mem_map_of_mem Note.id hm)
    have hstep : list_notes (create_note fresh payload fs).2
        = (create_note fresh payload fs).1 :: list_notes fs := rfl
    have hid1 : (create_note fresh payload fs).1.id = fresh := rfl
    rw [hstep, List.filter_cons]
    simp [hnil, hid1]

/-- Witness for C1 at a concrete input. -/
theorem create_note_fresh_and_defaults_witness :
    parseCreate (RawCreate.mk (Field3.val "Buy milk") Field3.absent Field3.absent)
        = some (NoteCreate.mk "Buy milk" "" (some [])) ∧
    "id-1" ∉ (list_notes FileState.missing).map Note.id ∧
    CreateSpec (RawCreate.mk (Field3.val "Buy milk") Field3.absent Field3.absent)
        (NoteCreate.mk "Buy milk" "" (some [])) "id-1" FileState.missing :=
  ⟨by decide, by decide,
    create_note_fresh_and_defaults _ _ _ _ (by decide) (by decide)⟩

/-- Claim C2: for every update call on an existing note, only the fields
explicitly present in the partial payload are changed; absent fields keep
their prior stored values, the id is unchanged, the full updated note is
returned, and the rest of the store is untouched. -/
theorem update_note_applies_present_fields (note_id : String)
    (payload : NoteUpdate) (fs : FileState) (n₀ : Note)
    (h : (list_notes fs).find? (fun n => n.id == note_id) = some n₀) :
    UpdateSpec note_id payload fs n₀ := by
  obtain ⟨hid, l₁, l₂, hl, hl₁, hup⟩ := find?_id_spec note_id (list_notes fs) n₀ h
  have hu : updateFirst note_id payload (_load_notes fs)
      = some (applyUpdate payload n₀, l₁ ++ applyUpdate payload n₀ :: l₂) :=
    hup payload
  refine ⟨?_, rfl, ?_, ?_, ?_, ?_, ?_, ?_, l₁, l₂, hl, hl₁, ?_⟩
  · simp [update_note, hu]
  · intro ht; simp [applyUpdate, ht]
  · intro t ht; simp [applyUpdate, ht]
  · intro hc; simp [applyUpdate, hc]
  · intro c hc; simp [applyUpdate, hc]
  · intro hg; simp [applyUpdate, hg]
  · intro g hg; simp [applyUpdate, hg]
  · show list_notes (update_note note_id payload fs).2 = _
    simp only [update_note, hu]
    rfl

/-- Witness for C2 at a concrete input. -/
theorem update_note_applies_present_fields_witness :
    (list_notes (_save_notes [Note.mk "a" "old" "c" ["x"]])).find?
        (fun n => n.id == "a") = some (Note.mk "a" "old" "c" ["x"]) ∧
    UpdateSpec "a" (NoteUpdate.mk (some "new") none none)
        (_save_notes [Note.mk "a" "old" "c" ["x"]]) (Note.mk "a" "old" "c" ["x"]) :=
  ⟨by decide, update_note_applies_present_fields _ _ _ _ (by decide)⟩

/-- Claim C3: for every id not present in the store, both update and
delete fail with the 404 not-found error and leave the persisted file
exactly as it was. -/
theorem update_delete_nonexistent_id (note_id : String) (payload : NoteUpdate)
    (fs : FileState) (h : ∀ n ∈ list_notes fs, n.id ≠ note_id) :
    update_note note_id payload fs = (Except.error ApiError.notFound, fs) ∧
    delete_note note_id fs = (Except.error ApiError.notFound, fs) := by
  have h' : ∀ n ∈ _load_notes fs, n.id ≠ note_id := h
  constructor
  · have hn := updateFirst_eq_none note_id payload (_load_notes fs) h'
    simp [update_note, hn]
  · have hf := @filter_ne_eq_self note_id (_load_notes fs) h'
    simp [delete_note, hf]

/-- Witness for C3 at a concrete input. -/
theorem update_delete_nonexistent_id_witness :
    (∀ n ∈ list_notes (_save_notes [Note.mk "a" "old" "c" ["x"]]), n.id ≠ "zzz") ∧
    (update_note "zzz" (NoteUpdate.mk none none none)
        (_save_notes [Note.mk "a" "old" "c" ["x"]])
      = (Except.error ApiError.notFound, _save_notes [Note.mk "a" "old" "c" ["x"]]) ∧
     delete_note "zzz" (_save_notes [Note.mk "a" "old" "c" ["x"]])
      = (Except.error ApiError.notFound, _save_notes [Note.mk "a" "old" "c" ["x"]])) :=
  ⟨by decide, update_delete_nonexistent_id _ _ _ (by decide)⟩

/-- Claim C4 (refuted, code bug): the claim says no operation can leave a
stored note with an empty title, but `NoteUpdate.title` carries no
`min_length` constraint, so updating an existing note with an explicit
empty-string title stores a note whose title is empty.  Concretely:
create a note, then update it with title `""`; the store then holds
exactly one note and its title is the empty string. -/
theorem update_can_store_empty_title :
    (list_notes (update_note "a" (NoteUpdate.mk (some "") none none)
        (create_note "a" (NoteCreate.mk "Buy milk" "" (some []))
          FileState.missing).2).2).map Note.title = [""] := by decide

/-- Claim C5: a missing or corrupt (unparseable) persisted file makes
every store operation behave as on an empty store; no error propagates. -/
theorem missing_or_corrupt_behaves_as_empty (fs : FileState)
    (h : fs = FileState.missing ∨ fs = FileState.corrupt) :
    BehavesAsEmpty fs := by
  rcases h with rfl | rfl <;>
    exact ⟨rfl, fun _ _ => rfl, fun _ _ => ⟨rfl, rfl⟩, fun _ => ⟨rfl, rfl⟩⟩

/-- Witness for C5 at a concrete input. -/
theorem missing_or_corrupt_behaves_as_empty_witness :
    (FileState.missing = FileState.missing ∨
     FileState.missing = FileState.corrupt) ∧
    BehavesAsEmpty FileState.missing :=
  ⟨Or.inl rfl, missing_or_corrupt_behaves_as_empty _ (Or.inl rfl)⟩

/-- Claim C6: round-trip — saving any collection of notes to the
persisted file and reloading it yields the same notes with identical
field values; the underlying JSON serialization is lossless. -/
theorem save_load_roundtrip (ns : List Note) :
    _load_notes (_save_notes ns) = ns ∧
    decodeNotes (encodeNotes ns) = some ns :=
  ⟨rfl, decodeNotes_encodeNotes ns⟩

/-- Claim C7: a create request whose title is missing or empty is
rejected with the 422 validation error and the persisted file is left
exactly as it was (no note is added). -/
theorem create_missing_or_empty_title_rejected (fresh : String) (r : RawCreate)
    (fs : FileState)
    (h : r.title = Field3.absent ∨ r.title = Field3.val "") :
    handle_create fresh r fs = (Except.error ApiError.validation, fs) ∧
    list_notes (handle_create fresh r fs).2 = list_notes fs := by
  rcases r with ⟨rt, rc, rg⟩
  rcases h with h | h <;> cases h <;> exact ⟨rfl, rfl⟩

/-- Witness for C7 at a concrete input. -/
theorem create_missing_or_empty_title_rejected_witness :
    ((RawCreate.mk Field3.absent Field3.absent Field3.absent).title
        = Field3.absent ∨
     (RawCreate.mk Field3.absent Field3.absent Field3.absent).title
        = Field3.val "") ∧
    (handle_create "id-1" (RawCreate.mk Field3.absent Field3.absent Field3.absent)
        FileState.missing
      = (Except.error ApiError.validation, FileState.missing) ∧
     list_notes (handle_create "id-1"
        (RawCreate.mk Field3.absent Field3.absent Field3.absent)
        FileState.missing).2 = list_notes FileState.missing) :=
  ⟨Or.inl rfl, create_missing_or_empty_title_rejected _ _ _ (Or.inl rfl)⟩

/-- Claim C8: deleting an id present in the store succeeds returning that
id, the subsequent listing contains no note with that id, and a second
delete of the same id fails with the 404 not-found error. -/
theorem delete_removes_id_then_notfound (note_id : String) (fs : FileState)
    (h : ∃ n ∈ list_notes fs, n.id = note_id) :
    DeleteSpec note_id fs := by
  have hlen := @length_filter_ne_of_mem note_id (_load_notes fs) h
  have hstate : (delete_note note_id fs).2
      = _save_notes ((_load_notes fs).filter (fun n => n.id != note_id)) := by
    simp [delete_note, hlen]
  refine ⟨?_, ?_, ?_⟩
  · simp [delete_note, hlen]
  · intro m hm
    rw [hstate] at hm
    exact id_ne_of_mem_filter hm
  · rw [hstate]
    simp [delete_note, _save_notes, _load_notes, filter_ne_idem]

/-- Witness for C8 at a concrete input. -/
theorem delete_removes_id_then_notfound_witness :
    (∃ n ∈ list_notes (_save_notes [Note.mk "a" "old" "c" ["x"]]), n.id = "a") ∧
    DeleteSpec "a" (_save_notes [Note.mk "a" "old" "c" ["x"]]) :=
  ⟨by decide, delete_removes_id_then_notfound _ _ (by decide)⟩

/-- Claim C9: listing immediately after a valid create shows the new note
as the first element of the sequence (creation prepends), with field
values matching the submitted payload and defaults applied for omitted
`content`/`tags`. -/
theorem list_after_create_prepends (r : RawCreate) (payload : NoteCreate)
    (fresh : String) (fs : FileState) (hp : parseCreate r = some payload) :
    CreateListSpec r payload fresh fs := by
  refine ⟨rfl, rfl, rfl, rfl, fun hc => parseCreate_content_absent hp hc, ?_⟩
  intro hg
  have ht := parseCreate_tags_absent hp hg
  simp [create_note, ht]

/-- Witness for C9 at a concrete input. -/
theorem list_after_create_prepends_witness :
    parseCreate (RawCreate.mk (Field3.val "Buy milk") Field3.absent
        (Field3.val ["errand"]))
      = some (NoteCreate.mk "Buy milk" "" (some ["errand"])) ∧
    CreateListSpec (RawCreate.mk (Field3.val "Buy milk") Field3.absent
        (Field3.val ["errand"]))
      (NoteCreate.mk "Buy milk" "" (some ["errand"])) "id-2"
      (_save_notes [Note.mk "a" "old" "c" ["x"]]) :=
  ⟨by decide, list_after_create_prepends _ _ _ _ (by decide)⟩

/-- Claim C10: for update calls, a field sent as an explicit `null` is
treated exactly like an absent field — validation maps both to `None`,
the whole request behaves identically to the same request with the field
removed, and a `null` title on an existing note leaves the stored title
unchanged. -/
theorem update_null_indistinguishable_from_absent (note_id : String)
    (r : RawUpdate) (fs : FileState) : NullAbsentSpec note_id r fs := by
  have hparse : parseUpdate (absentify r) = parseUpdate r := by
    rcases r with ⟨rt, rc, rg⟩
    cases rt <;> cases rc <;> cases rg <;> rfl
  refine ⟨by simp [handle_update, hparse], ?_, ?_, ?_, ?_⟩
  · intro h; simp [parseUpdate, h, field3ToOpt]
  · intro h; simp [parseUpdate, h, field3ToOpt]
  · intro h; simp [parseUpdate, h, field3ToOpt]
  · intro n₀ hfind hnull
    obtain ⟨hid, l₁, l₂, hl, hl₁, hup⟩ :=
      find?_id_spec note_id (list_notes fs) n₀ hfind
    have hu : updateFirst note_id (parseUpdate r) (_load_notes fs)
        = some (applyUpdate (parseUpdate r) n₀,
            l₁ ++ applyUpdate (parseUpdate r) n₀ :: l₂) :=
      hup (parseUpdate r)
    constructor
    · simp [handle_update, update_note, hu]
    · simp [applyUpdate, parseUpdate, hnull, field3ToOpt]

/-- Witness for C10 at a concrete input. -/
theorem update_null_indistinguishable_from_absent_witness :
    NullAbsentSpec "a" (RawUpdate.mk Field3.null Field3.null Field3.null)
      (_save_notes [Note.mk "a" "old" "c" ["x"]]) :=
  update_null_indistinguishable_from_absent _ _ _

end NotesOrganizer
